import Mathlib

/-!
A shallow embedding of the `httpclient` Go package
(`httpclient.go`, `types.go`) in Lean 4.

Modelling conventions:
* `time.Duration` is an `Int` counted in nanoseconds.
* `map[string]string` values (header maps) are association lists
  `List (String × String)`; a Go map has pairwise-distinct keys, which
  theorems assume through a `Nodup` hypothesis on the key list.
* `http.Request.Header` is likewise an association list observed through
  `headerGet` (Go's `Header.Get`) and updated through `headerSet`
  (Go's `Header.Set`, which replaces every previous value of the key).
* The network is external: one call to `hc.client.Do` is modelled by a
  function `transport : Nat → Outcome` giving, for each 0-based attempt
  index, either a transport-level error or a received response.
* `encoding/json` is external; `json.Marshal` is modelled on a small
  universe `JSONValue` of Go values that contains an unserializable
  value (`channel`), and JSON decoding is an abstract parameter.
* The logger is write-only and never influences control flow
  (`hc.logger.Printf` calls); it is omitted from the state.
-/

namespace HttpClient

/-- Go's `time.Duration`: a count of nanoseconds. -/
abbrev Duration := Int

/-- Model of `*tls.Config` (external `crypto/tls` type, used opaquely). -/
structure TLSConfig where
  insecureSkipVerify : Bool := false
  deriving DecidableEq

/-- The fields of Go's `*http.Transport` visible to this package:
`TLSClientConfig` is read and written by `WithTLSConfig`; the remaining
fields stand for the rest of the transport's customization, which the
package never touches (their `:=` defaults are Go's zero values, as in
the literal `&http.Transport{...}`). -/
structure TransportFields where
  tlsClientConfig : Option TLSConfig := none
  maxIdleConns : Int := 0
  disableKeepAlives : Bool := false
  deriving DecidableEq

/-- Model of the dynamic `http.RoundTripper` interface value stored in
`hc.client.Transport`: a plain `*http.Transport`, a `*headerTransport`
wrapping another round tripper (`types.go`), or some other custom
implementation. -/
inductive RoundTripper where
  | transport (t : TransportFields)
  | headerTransport (headers : List (String × String)) (base : RoundTripper)
  | custom (id : Nat)
  deriving DecidableEq

/-- Model of `*http.Request`: the parts this package builds and reads. -/
structure Request where
  method : String := ""
  url : String := ""
  header : List (String × String) := []
  body : String := ""
  deriving DecidableEq

/-- Model of `*http.Response`: status code, body contents, and whether
`resp.Body.Close()` has been called. -/
structure Response where
  statusCode : Int
  body : String := ""
  bodyClosed : Bool := false
  deriving DecidableEq

/-- The outcome of one call to `hc.client.Do(req)`: a transport-level
error, or a response (of any status code). -/
inductive Outcome where
  | transportError (msg : String)
  | success (resp : Response)
  deriving DecidableEq

/-- The Go `error` values produced by this package. -/
inductive GoError where
  | transportError (msg : String)
  | non2xxResponse
  | unexpectedStatus (code : Int)
  | marshalError (msg : String)
  | decodeError (msg : String)
  deriving DecidableEq

/-- Go's `http.Header.Get`: the value stored for `key`, if any
(canonicalization of MIME header keys is not modelled; all keys in this
development are already in canonical form). -/
def headerGet : List (String × String) → String → Option String
  | [], _ => none
  | kv :: rest, key => if kv.1 = key then some kv.2 else headerGet rest key

/-- Drop every entry of `h` whose key is `key`. -/
def removeKey : List (String × String) → String → List (String × String)
  | [], _ => []
  | kv :: rest, key =>
      if kv.1 = key then removeKey rest key else kv :: removeKey rest key

/-- Go's `http.Header.Set`: store `value` as the sole value of `key`,
replacing any previous values. -/
def headerSet (h : List (String × String)) (key value : String) : List (String × String) :=
  (key, value) :: removeKey h key

/-- The loop `for key, value := range headers { req.Header.Set(key, value) }`
that appears in `headerTransport.RoundTrip` and in each verb helper. -/
def setHeaders (headers : List (String × String)) (req : Request) : Request :=
  headers.foldl (fun r kv => { r with header := headerSet r.header kv.1 kv.2 }) req

/-- A Go map assignment `m[key] = value` on a `map[string]string`
modelled as an association list: replace the entry if the key is
present, otherwise add it. -/
def mapSet (m : List (String × String)) (key value : String) : List (String × String) :=
  if m.any (fun kv => kv.1 = key) then
    m.map (fun kv => if kv.1 = key then (key, value) else kv)
  else
    m ++ [(key, value)]

/-- The `HTTPClient` struct of `types.go`, with the two fields of the
wrapped `*http.Client` that this package uses (`Transport`, `Timeout`)
inlined. The logger is omitted (see module docstring). -/
structure HTTPClient where
  transport : Option RoundTripper := none
  timeout : Duration := 0
  retryCount : Int := 0
  retryDelay : Duration := 0
  backoff : Option (Int → Duration) := none

/-- An `Option` is a function mutating the client under construction. -/
abbrev ClientOption := HTTPClient → HTTPClient

/-- `WithRetry` configures retry count and delay. -/
def WithRetry (retryCount : Int) (retryDelay : Duration) : ClientOption :=
  fun hc => { hc with retryCount := retryCount, retryDelay := retryDelay }

/-- `WithTransport` sets a custom Transport for the HTTP client. -/
def WithTransport (transport : RoundTripper) : ClientOption :=
  fun hc => { hc with transport := some transport }

/-- `WithTLSConfig`: if the current transport is a `*http.Transport`,
mutate its `TLSClientConfig` in place; otherwise (nil transport, a
`headerTransport`, or any other round tripper) install a fresh
`&http.Transport{TLSClientConfig: tlsConfig}`. -/
def WithTLSConfig (tlsConfig : TLSConfig) : ClientOption :=
  fun hc =>
    match hc.transport with
    | some (RoundTripper.transport t) =>
        { hc with
            transport := some (RoundTripper.transport { t with tlsClientConfig := some tlsConfig }) }
    | _ =>
        { hc with
            transport := some (RoundTripper.transport { tlsClientConfig := some tlsConfig }) }

/-- `WithDefaultHeaders` wraps the current transport (defaulting a nil
transport to `&http.Transport{}`) in a `headerTransport`. -/
def WithDefaultHeaders (headers : List (String × String)) : ClientOption :=
  fun hc =>
    let originalTransport := match hc.transport with
      | none => RoundTripper.transport {}
      | some t => t
    { hc with transport := some (RoundTripper.headerTransport headers originalTransport) }

/-- `WithTimeout` configures the timeout for the HTTP client. -/
def WithTimeout (timeout : Duration) : ClientOption :=
  fun hc => { hc with timeout := timeout }

/-- `NewHTTPClient` builds the defaulted client, then applies the
options in order. Note the default `backoff` field is the non-nil
function `func(attempt int) time.Duration { return 0 }`. -/
def NewHTTPClient (options : List ClientOption) : HTTPClient :=
  options.foldl (fun hc opt => opt hc)
    { transport := none, timeout := 0, retryCount := 0, retryDelay := 0,
      backoff := some (fun _ => 0) }

/-- The delay computed at the top of a retry iteration of `Do`:
`delay := hc.retryDelay; if hc.backoff != nil { delay = hc.backoff(i) }`. -/
def retryDelayFor (hc : HTTPClient) (i : Nat) : Duration :=
  match hc.backoff with
  | some backoff => backoff (i : Int)
  | none => hc.retryDelay

/-- The `time.Sleep(delay)` bookkeeping of an iteration: for `i > 0`
record the delay waited before attempt `i`. -/
def sleepsAfter (hc : HTTPClient) (i : Nat) (sleeps : List Duration) : List Duration :=
  if 0 < i then retryDelayFor hc i :: sleeps else sleeps

/-- The observable result of one `Do` call: the returned response and
error, the number of sends performed through the transport, and the
delays slept before retries (in order). -/
structure DoResult where
  resp : Option Response
  err : Option GoError
  attempts : Nat
  sleeps : List Duration
  deriving DecidableEq

/-- The body of `Do`'s `for i := 0; i <= hc.retryCount; i++` loop,
written with explicit fuel (the number of loop iterations left) and the
current attempt index `i`, last error, and sleeps recorded so far. -/
def doAttempts (hc : HTTPClient) (transport : Nat → Outcome) :
    Nat → Nat → Option GoError → List Duration → DoResult
  | 0, i, lastErr, sleeps => ⟨none, lastErr, i, sleeps.reverse⟩
  | fuel + 1, i, _lastErr, sleeps =>
    match transport i with
    | Outcome.transportError msg =>
        doAttempts hc transport fuel (i + 1)
          (some (GoError.transportError msg)) (sleepsAfter hc i sleeps)
    | Outcome.success resp =>
        if 200 ≤ resp.statusCode ∧ resp.statusCode < 300 then
          ⟨some resp, none, i + 1, (sleepsAfter hc i sleeps).reverse⟩
        else
          doAttempts hc transport fuel (i + 1)
            (some GoError.non2xxResponse) (sleepsAfter hc i sleeps)

/-- `(hc *HTTPClient) Do`: run the loop for `retryCount + 1` iterations
(zero iterations when `retryCount < 0`), starting with `lastErr = nil`. -/
def Do (hc : HTTPClient) (transport : Nat → Outcome) : DoResult :=
  doAttempts hc transport (hc.retryCount + 1).toNat 0 none []

/-- Attempt `j` of the transport does not yield a 2xx response (it is a
transport error or a response with status outside `[200, 300)`). -/
def attemptFails (transport : Nat → Outcome) (j : Nat) : Prop :=
  ∀ resp, transport j = Outcome.success resp →
    ¬(200 ≤ resp.statusCode ∧ resp.statusCode < 300)

/-- The `lastErr` value recorded by the loop body for a failing attempt
`j`: the transport error itself, or `errors.New("non-2xx response received")`. -/
def finalAttemptError (transport : Nat → Outcome) (j : Nat) : GoError :=
  match transport j with
  | Outcome.transportError msg => GoError.transportError msg
  | Outcome.success _ => GoError.non2xxResponse

/-- `headerTransport.RoundTrip` (`types.go`): the state of the request
at the moment it is delegated to the wrapped transport — every entry of
the decorator's fixed header map has been `Set` on it. The wrapped
transport's result is then returned verbatim. -/
def headerTransportRoundTrip (headers : List (String × String)) (req : Request) : Request :=
  setHeaders headers req

/-- `Post`: build a POST request, set each caller-supplied header on it,
and hand it to `Do`. Returns `Do`'s result together with the outgoing
request. -/
def Post (hc : HTTPClient) (transport : Nat → Outcome) (url : String) (body : String)
    (headers : List (String × String)) : DoResult × Request :=
  let req := setHeaders headers { method := "POST", url := url, body := body }
  (Do hc transport, req)

/-- A small universe of Go values handed to `json.Marshal`: serializable
basic values, plus a channel value, which `encoding/json` rejects with
an `UnsupportedTypeError`. -/
inductive JSONValue where
  | null
  | boolean (b : Bool)
  | number (n : Int)
  | str (s : String)
  | channel
  deriving DecidableEq

/-- Model of the external `json.Marshal` on `JSONValue`. -/
def jsonMarshal : JSONValue → Except GoError String
  | JSONValue.null => Except.ok "null"
  | JSONValue.boolean true => Except.ok "true"
  | JSONValue.boolean false => Except.ok "false"
  | JSONValue.number n => Except.ok (toString n)
  | JSONValue.str s => Except.ok ("\"" ++ s ++ "\"")
  | JSONValue.channel => Except.error (GoError.marshalError "json: unsupported type: chan")

/-- The observable result of one `PostJSON` call. `request` is the
outgoing request built by `Post` (none when `json.Marshal` failed before
a request was built); `callerHeaders` is the caller's headers map after
the call (none when the caller passed a nil map). -/
structure PostJSONResult where
  resp : Option Response
  err : Option GoError
  attempts : Nat
  request : Option Request
  callerHeaders : Option (List (String × String))
  deriving DecidableEq

/-- `PostJSON`: default a nil headers map to a fresh empty one, marshal
the body (returning the marshal error with no send on failure), assign
`headers["Content-Type"] = "application/json"` on the (shared) map, and
delegate to `Post`. -/
def PostJSON (hc : HTTPClient) (transport : Nat → Outcome) (url : String)
    (jsonBody : JSONValue) (headers : Option (List (String × String))) : PostJSONResult :=
  let hdrs := match headers with
    | none => []
    | some m => m
  match jsonMarshal jsonBody with
  | Except.error e => ⟨none, some e, 0, none, headers⟩
  | Except.ok body =>
      let hdrs := mapSet hdrs "Content-Type" "application/json"
      let dr := Post hc transport url body hdrs
      ⟨dr.1.resp, dr.1.err, dr.1.attempts, some dr.2, headers.map (fun _ => hdrs)⟩

/-- `ReadJSONResponseBody`, parametric in the decode target type and in
the external `json.NewDecoder(resp.Body).Decode` operation, modelled as
a function from the body text and the current target value to an
optional error and the updated target value. Returns the error result,
the final target value, and the response after the deferred
`resp.Body.Close()`. -/
def ReadJSONResponseBody {α : Type} (decode : String → α → Option GoError × α)
    (resp : Response) (target : α) : Option GoError × α × Response :=
  let closed := { resp with bodyClosed := true }
  if resp.statusCode < 200 ∨ 300 ≤ resp.statusCode then
    (some (GoError.unexpectedStatus resp.statusCode), target, closed)
  else
    ((decode resp.body target).1, (decode resp.body target).2, closed)

/-! ## Header-map lemmas -/

theorem headerGet_headerSet_self (h : List (String × String)) (key value : String) :
    headerGet (headerSet h key value) key = some value := by
  simp [headerSet, headerGet]

theorem headerGet_removeKey_ne (h : List (String × String)) (key other : String)
    (hne : other ≠ key) :
    headerGet (removeKey h key) other = headerGet h other := by
  induction h with
  | nil => rfl
  | cons kv rest ih =>
    by_cases hk : kv.1 = key
    · have hko : ¬key = other := fun e => hne e.symm
      simp [removeKey, hk, headerGet, hko, ih]
    · by_cases ho : kv.1 = other
      · simp [removeKey, hk, headerGet, ho, hne]
      · simp [removeKey, hk, headerGet, ho, ih]

theorem headerGet_headerSet_ne (h : List (String × String)) (key value other : String)
    (hne : other ≠ key) :
    headerGet (headerSet h key value) other = headerGet h other := by
  have hko : ¬key = other := fun e => hne e.symm
  simp [headerSet, headerGet, hko, headerGet_removeKey_ne h key other hne]

theorem headerGet_setHeaders_not_mem (headers : List (String × String)) (req : Request)
    (key : String) (hnm : key ∉ headers.map Prod.fst) :
    headerGet (setHeaders headers req).header key = headerGet req.header key := by
  induction headers generalizing req with
  | nil => rfl
  | cons kv rest ih =>
    rw [List.map_cons, List.mem_cons, not_or] at hnm
    have step : setHeaders (kv :: rest) req
        = setHeaders rest { req with header := headerSet req.header kv.1 kv.2 } := rfl
    rw [step, ih _ hnm.2]
    exact headerGet_headerSet_ne req.header kv.1 kv.2 key hnm.1

theorem headerGet_setHeaders_of_mem (headers : List (String × String)) (req : Request)
    (key value : String) (hnodup : (headers.map Prod.fst).Nodup)
    (hmem : (key, value) ∈ headers) :
    headerGet (setHeaders headers req).header key = some value := by
  induction headers generalizing req with
  | nil => cases hmem
  | cons kv rest ih =>
    obtain ⟨k1, v1⟩ := kv
    rw [List.map_cons, List.nodup_cons] at hnodup
    have step : setHeaders ((k1, v1) :: rest) req
        = setHeaders rest { req with header := headerSet req.header k1 v1 } := rfl
    rcases List.mem_cons.mp hmem with heq | hmem'
    · have hk : key = k1 := congrArg Prod.fst heq
      have hv : value = v1 := congrArg Prod.snd heq
      subst hk; subst hv
      rw [step, headerGet_setHeaders_not_mem rest _ key hnodup.1]
      exact headerGet_headerSet_self req.header key value
    · rw [step]
      exact ih _ hnodup.2 hmem'

/-! ## Retry-loop lemmas -/

theorem doAttempts_succ (hc : HTTPClient) (transport : Nat → Outcome)
    (fuel i : Nat) (lastErr : Option GoError) (sleeps : List Duration) :
    doAttempts hc transport (fuel + 1) i lastErr sleeps =
      match transport i with
      | Outcome.transportError msg =>
          doAttempts hc transport fuel (i + 1)
            (some (GoError.transportError msg)) (sleepsAfter hc i sleeps)
      | Outcome.success resp =>
          if 200 ≤ resp.statusCode ∧ resp.statusCode < 300 then
            ⟨some resp, none, i + 1, (sleepsAfter hc i sleeps).reverse⟩
          else
            doAttempts hc transport fuel (i + 1)
              (some GoError.non2xxResponse) (sleepsAfter hc i sleeps) := rfl

theorem doAttempts_exhausts (hc : HTTPClient) (transport : Nat → Outcome) :
    ∀ (fuel i : Nat) (lastErr : Option GoError) (sleeps : List Duration),
    (∀ j, i ≤ j → j < i + fuel + 1 → attemptFails transport j) →
    (doAttempts hc transport (fuel + 1) i lastErr sleeps).resp = none ∧
    (doAttempts hc transport (fuel + 1) i lastErr sleeps).attempts = i + fuel + 1 ∧
    (doAttempts hc transport (fuel + 1) i lastErr sleeps).err
      = some (finalAttemptError transport (i + fuel)) := by
  intro fuel
  induction fuel with
  | zero =>
    intro i lastErr sleeps hfail
    cases htr : transport i with
    | transportError msg =>
      simp [doAttempts, htr, finalAttemptError]
    | success resp =>
      have hnot := hfail i (Nat.le_refl i) (by omega) resp htr
      simp [doAttempts, htr, hnot, finalAttemptError]
  | succ fuel ih =>
    intro i lastErr sleeps hfail
    have hfail' : ∀ j, i + 1 ≤ j → j < (i + 1) + fuel + 1 → attemptFails transport j := by
      intro j h1 h2
      exact hfail j (by omega) (by omega)
    have hidx : i + 1 + fuel = i + (fuel + 1) := by omega
    cases htr : transport i with
    | transportError msg =>
      have hstep' := ih (i + 1) (some (GoError.transportError msg))
        (sleepsAfter hc i sleeps) hfail'
      have hred : doAttempts hc transport (fuel + 1 + 1) i lastErr sleeps
          = doAttempts hc transport (fuel + 1) (i + 1)
              (some (GoError.transportError msg)) (sleepsAfter hc i sleeps) := by
        rw [doAttempts_succ hc transport (fuel + 1) i lastErr sleeps, htr]
      rw [hred]
      refine ⟨hstep'.1, ?_, ?_⟩
      · rw [hstep'.2.1]; omega
      · rw [hstep'.2.2, hidx]
    | success resp =>
      have hnot := hfail i (Nat.le_refl i) (by omega) resp htr
      have hstep' := ih (i + 1) (some GoError.non2xxResponse)
        (sleepsAfter hc i sleeps) hfail'
      have hred : doAttempts hc transport (fuel + 1 + 1) i lastErr sleeps
          = doAttempts hc transport (fuel + 1) (i + 1)
              (some GoError.non2xxResponse) (sleepsAfter hc i sleeps) := by
        rw [doAttempts_succ hc transport (fuel + 1) i lastErr sleeps, htr]
        exact if_neg hnot
      rw [hred]
      refine ⟨hstep'.1, ?_, ?_⟩
      · rw [hstep'.2.1]; omega
      · rw [hstep'.2.2, hidx]

theorem doAttempts_first_success (hc : HTTPClient) (transport : Nat → Outcome)
    (resp : Response) (k : Nat)
    (h2xx : 200 ≤ resp.statusCode ∧ resp.statusCode < 300)
    (hsucc : transport k = Outcome.success resp) :
    ∀ (fuel i : Nat) (lastErr : Option GoError) (sleeps : List Duration),
    i ≤ k → k < i + fuel →
    (∀ j, i ≤ j → j < k → attemptFails transport j) →
    (doAttempts hc transport fuel i lastErr sleeps).resp = some resp ∧
    (doAttempts hc transport fuel i lastErr sleeps).err = none ∧
    (doAttempts hc transport fuel i lastErr sleeps).attempts = k + 1 := by
  intro fuel
  induction fuel with
  | zero =>
    intro i lastErr sleeps hik hk hfail
    omega
  | succ fuel ih =>
    intro i lastErr sleeps hik hk hfail
    rcases Nat.eq_or_lt_of_le hik with heq | hlt
    · subst heq
      simp [doAttempts, hsucc, h2xx]
    · have hfail' : ∀ j, i + 1 ≤ j → j < k → attemptFails transport j := by
        intro j h1 h2
        exact hfail j (by omega) h2
      cases htr : transport i with
      | transportError msg =>
        have hstep := ih (i + 1) (some (GoError.transportError msg))
          (sleepsAfter hc i sleeps) hlt (by omega) hfail'
        simpa [doAttempts, htr] using hstep
      | success r =>
        have hnot := hfail i (Nat.le_refl i) hlt r htr
        have hstep := ih (i + 1) (some GoError.non2xxResponse)
          (sleepsAfter hc i sleeps) hlt (by omega) hfail'
        simpa [doAttempts, htr, hnot] using hstep

/-! ## Claim theorems -/

/-- C1: for every client with `retryCount = N ≥ 0` and every transport
failing on all attempts (transport error or non-2xx status each time),
`Do` performs exactly `N + 1` sends and returns a nil response together
with the error recorded on the final attempt (the transport error or
the generic non-2xx marker), which is non-nil. -/
theorem do_persistent_failure_exhausts_attempts (N : Nat) (hc : HTTPClient)
    (transport : Nat → Outcome) (hN : hc.retryCount = (N : Int))
    (hfail : ∀ j, j ≤ N → attemptFails transport j) :
    (Do hc transport).attempts = N + 1 ∧
    (Do hc transport).resp = none ∧
    (Do hc transport).err = some (finalAttemptError transport N) := by
  have hfuel : (hc.retryCount + 1).toNat = N + 1 := by rw [hN]; omega
  have h := doAttempts_exhausts hc transport N 0 none []
    (fun j h1 h2 => hfail j (by omega))
  rw [Do, hfuel]
  exact ⟨by simpa using h.2.1, h.1, by simpa using h.2.2⟩

/-- Witness for C1 at `N = 1` with a transport refusing every attempt. -/
theorem do_persistent_failure_exhausts_attempts_witness :
    (Do (NewHTTPClient [WithRetry 1 5]) (fun _ => Outcome.transportError "connection refused")).attempts = 2 ∧
    (Do (NewHTTPClient [WithRetry 1 5]) (fun _ => Outcome.transportError "connection refused")).resp = none ∧
    (Do (NewHTTPClient [WithRetry 1 5]) (fun _ => Outcome.transportError "connection refused")).err
      = some (finalAttemptError (fun _ => Outcome.transportError "connection refused") 1) :=
  do_persistent_failure_exhausts_attempts 1 (NewHTTPClient [WithRetry 1 5])
    (fun _ => Outcome.transportError "connection refused") (by decide)
    (fun j hj resp hresp => by cases hresp)

/-- C3: for every client with `retryCount = N` and a transport whose
`k`-th attempt (1-based, `k ≤ N + 1`) is the first to return a 2xx
response, `Do` returns that response with a nil error after exactly `k`
sends. -/
theorem do_first_success_short_circuits (N k : Nat) (hc : HTTPClient)
    (transport : Nat → Outcome) (resp : Response)
    (hN : hc.retryCount = (N : Int)) (hk1 : 1 ≤ k) (hkN : k ≤ N + 1)
    (hfail : ∀ j, j < k - 1 → attemptFails transport j)
    (hsucc : transport (k - 1) = Outcome.success resp)
    (h2xx : 200 ≤ resp.statusCode ∧ resp.statusCode < 300) :
    (Do hc transport).resp = some resp ∧
    (Do hc transport).err = none ∧
    (Do hc transport).attempts = k := by
  have hfuel : (hc.retryCount + 1).toNat = N + 1 := by rw [hN]; omega
  have h := doAttempts_first_success hc transport resp (k - 1) h2xx hsucc
    (N + 1) 0 none [] (Nat.zero_le _) (by omega)
    (fun j h1 h2 => hfail j h2)
  rw [Do, hfuel]
  exact ⟨h.1, h.2.1, by rw [h.2.2]; omega⟩

/-- Witness for C3: success on the second attempt with `retryCount = 3`. -/
theorem do_first_success_short_circuits_witness :
    (Do (NewHTTPClient [WithRetry 3 0])
        (fun j => if j = 0 then Outcome.transportError "connection refused"
                  else Outcome.success { statusCode := 200, body := "OK" })).resp
      = some { statusCode := 200, body := "OK" } ∧
    (Do (NewHTTPClient [WithRetry 3 0])
        (fun j => if j = 0 then Outcome.transportError "connection refused"
                  else Outcome.success { statusCode := 200, body := "OK" })).err = none ∧
    (Do (NewHTTPClient [WithRetry 3 0])
        (fun j => if j = 0 then Outcome.transportError "connection refused"
                  else Outcome.success { statusCode := 200, body := "OK" })).attempts = 2 :=
  do_first_success_short_circuits 3 2 (NewHTTPClient [WithRetry 3 0])
    (fun j => if j = 0 then Outcome.transportError "connection refused"
              else Outcome.success { statusCode := 200, body := "OK" })
    { statusCode := 200, body := "OK" }
    (by decide) (by decide) (by decide)
    (fun j hj resp hresp => by interval_cases j; simp at hresp)
    (by decide) (by decide)

/-- C9: for every client whose `retryCount` field is negative, the loop
body of `Do` never runs: zero sends, nil response and nil error. -/
theorem do_negative_retryCount_returns_nothing (hc : HTTPClient)
    (transport : Nat → Outcome) (h : hc.retryCount < 0) :
    Do hc transport = ⟨none, none, 0, []⟩ := by
  have hfuel : (hc.retryCount + 1).toNat = 0 := by omega
  rw [Do, hfuel]
  rfl

/-- Witness for C9 at `retryCount = -1`. -/
theorem do_negative_retryCount_returns_nothing_witness :
    Do (NewHTTPClient [WithRetry (-1) 0])
      (fun _ => Outcome.success { statusCode := 200 }) = ⟨none, none, 0, []⟩ :=
  do_negative_retryCount_returns_nothing (NewHTTPClient [WithRetry (-1) 0])
    (fun _ => Outcome.success { statusCode := 200 }) (by decide)

/-- C2 (evaluation at the failing input): with `WithRetry(1, 5)` applied
and no backoff option, the client's `retryDelay` is `5`, yet the
constructor's default `backoff` field is non-nil (the zero function),
so the delay slept before the single retry inside `Do` is `0`, not the
configured `retryDelay`. -/
theorem do_default_backoff_overrides_retryDelay :
    (NewHTTPClient [WithRetry 1 5]).retryDelay = 5 ∧
    (NewHTTPClient [WithRetry 1 5]).backoff ≠ none ∧
    (Do (NewHTTPClient [WithRetry 1 5])
        (fun _ => Outcome.transportError "connection refused")).sleeps = [0] := by
  refine ⟨rfl, ?_, rfl⟩
  simp [NewHTTPClient, WithRetry]

/-- C5: for every header-decorator mapping (a Go map, hence pairwise
distinct keys) and every request, after `headerTransport.RoundTrip`
stamps the defaults and before it delegates to the wrapped transport,
the request carries every entry of the mapping as its header value,
overwriting any caller-supplied value of the same name. -/
theorem headerTransport_roundTrip_sets_every_header
    (headers : List (String × String)) (req : Request) (key value : String)
    (hnodup : (headers.map Prod.fst).Nodup) (hmem : (key, value) ∈ headers) :
    headerGet (headerTransportRoundTrip headers req).header key = some value :=
  headerGet_setHeaders_of_mem headers req key value hnodup hmem

/-- Witness for C5: `X-App: myapp` overwrites the caller's own `X-App`. -/
theorem headerTransport_roundTrip_sets_every_header_witness :
    headerGet (headerTransportRoundTrip [("X-App", "myapp")]
        { header := [("X-App", "caller")] }).header "X-App" = some "myapp" :=
  headerTransport_roundTrip_sets_every_header [("X-App", "myapp")]
    { header := [("X-App", "caller")] } "X-App" "myapp" (by simp) (by simp)

/-- C6: when the installed transport is not a plain `*http.Transport`
(nil, wrapped by the header decorator, or custom), `WithTLSConfig`
replaces it by a fresh transport carrying only the TLS configuration,
discarding the previous customization; when it is a plain
`*http.Transport`, only its TLS field is changed, in place. -/
theorem withTLSConfig_mutates_or_replaces_transport (cfg : TLSConfig) (hc : HTTPClient) :
    ((∀ t, hc.transport ≠ some (RoundTripper.transport t)) →
      (WithTLSConfig cfg hc).transport
        = some (RoundTripper.transport { tlsClientConfig := some cfg })) ∧
    (∀ t, hc.transport = some (RoundTripper.transport t) →
      (WithTLSConfig cfg hc).transport
        = some (RoundTripper.transport { t with tlsClientConfig := some cfg })) := by
  constructor
  · intro hne
    rcases h : hc.transport with _ | rt
    · simp [WithTLSConfig, h]
    · cases rt with
      | transport t => exact absurd h (hne t)
      | headerTransport hs base => simp [WithTLSConfig, h]
      | custom id => simp [WithTLSConfig, h]
  · intro t ht
    simp [WithTLSConfig, ht]

/-- Witness for C6: applying `WithTLSConfig` after `WithDefaultHeaders`
discards the header decorator and installs a bare transport carrying
only the TLS config. -/
theorem withTLSConfig_mutates_or_replaces_transport_witness :
    (WithTLSConfig { insecureSkipVerify := true }
        (NewHTTPClient [WithDefaultHeaders [("X-App", "myapp")]])).transport
      = some (RoundTripper.transport { tlsClientConfig := some { insecureSkipVerify := true } }) :=
  (withTLSConfig_mutates_or_replaces_transport { insecureSkipVerify := true }
      (NewHTTPClient [WithDefaultHeaders [("X-App", "myapp")]])).1
    (fun t h => by simp [NewHTTPClient, WithDefaultHeaders] at h)

/-- C7: on a response with status outside `[200, 300)`,
`ReadJSONResponseBody` returns a non-nil error, leaves the decode
target unchanged, closes the body, and its result does not depend on
the decoder (no decode is attempted); on a 2xx response it runs the
decoder on the body against the target, and also closes the body. -/
theorem readJSONResponseBody_status_gate {α : Type}
    (decode decodeOther : String → α → Option GoError × α) (resp : Response) (target : α) :
    (resp.statusCode < 200 ∨ 300 ≤ resp.statusCode →
      (ReadJSONResponseBody decode resp target).1
        = some (GoError.unexpectedStatus resp.statusCode) ∧
      (ReadJSONResponseBody decode resp target).2.1 = target ∧
      (ReadJSONResponseBody decode resp target).2.2.bodyClosed = true ∧
      ReadJSONResponseBody decode resp target = ReadJSONResponseBody decodeOther resp target) ∧
    (200 ≤ resp.statusCode ∧ resp.statusCode < 300 →
      (ReadJSONResponseBody decode resp target).1 = (decode resp.body target).1 ∧
      (ReadJSONResponseBody decode resp target).2.1 = (decode resp.body target).2 ∧
      (ReadJSONResponseBody decode resp target).2.2.bodyClosed = true) := by
  constructor
  · intro h
    simp [ReadJSONResponseBody, if_pos h]
  · intro h
    have hcond : ¬(resp.statusCode < 200 ∨ 300 ≤ resp.statusCode) := by omega
    simp [ReadJSONResponseBody, if_neg hcond]

/-- Witness for C7 at a 404 response with two different decoders. -/
theorem readJSONResponseBody_status_gate_witness :
    (ReadJSONResponseBody (fun _ t => (none, t))
        { statusCode := 404, body := "missing" } (0 : Int)).1
      = some (GoError.unexpectedStatus 404) ∧
    (ReadJSONResponseBody (fun _ t => (none, t))
        { statusCode := 404, body := "missing" } (0 : Int)).2.1 = 0 ∧
    (ReadJSONResponseBody (fun _ t => (none, t))
        { statusCode := 404, body := "missing" } (0 : Int)).2.2.bodyClosed = true ∧
    ReadJSONResponseBody (fun _ t => (none, t))
        { statusCode := 404, body := "missing" } (0 : Int)
      = ReadJSONResponseBody (fun s t => (some (GoError.decodeError s), t + 1))
        { statusCode := 404, body := "missing" } (0 : Int) :=
  (readJSONResponseBody_status_gate (fun _ t => (none, t))
      (fun s t => (some (GoError.decodeError s), t + 1))
      { statusCode := 404, body := "missing" } (0 : Int)).1 (by decide)

/-! ## Map-assignment lemmas -/

theorem headerGet_append_not_mem (m : List (String × String)) (key value : String)
    (h : ∀ kv ∈ m, kv.1 ≠ key) :
    headerGet (m ++ [(key, value)]) key = some value := by
  induction m with
  | nil => simp [headerGet]
  | cons kv rest ih =>
    have hk := h kv (List.mem_cons_self kv rest)
    simp only [List.cons_append, headerGet, if_neg hk]
    exact ih (fun kv' hkv' => h kv' (List.mem_cons_of_mem kv hkv'))

theorem headerGet_map_replace (m : List (String × String)) (key value : String)
    (hany : m.any (fun kv => kv.1 = key) = true) :
    headerGet (m.map (fun kv => if kv.1 = key then (key, value) else kv)) key
      = some value := by
  induction m with
  | nil => cases hany
  | cons kv rest ih =>
    by_cases hk : kv.1 = key
    · simp [headerGet, hk]
    · have hrest : rest.any (fun kv => kv.1 = key) = true := by
        simpa [List.any_cons, hk] using hany
      simp [headerGet, hk, ih hrest]

theorem headerGet_mapSet_self (m : List (String × String)) (key value : String) :
    headerGet (mapSet m key value) key = some value := by
  rw [mapSet]
  split
  · rename_i hany
    exact headerGet_map_replace m key value hany
  · rename_i hany
    refine headerGet_append_not_mem m key value (fun kv hkv => ?_)
    intro hk
    exact hany (List.any_eq_true.mpr ⟨kv, hkv, by simp [hk]⟩)

theorem mem_mapSet_self (m : List (String × String)) (key value : String) :
    (key, value) ∈ mapSet m key value := by
  rw [mapSet]
  split
  · rename_i hany
    obtain ⟨kv, hkv, hk⟩ := List.any_eq_true.mp hany
    refine List.mem_map.mpr ⟨kv, hkv, ?_⟩
    simp only [of_decide_eq_true hk, if_pos]
  · exact List.mem_append.mpr (Or.inr (List.mem_singleton.mpr rfl))

theorem nodup_keys_mapSet (m : List (String × String)) (key value : String)
    (h : (m.map Prod.fst).Nodup) :
    ((mapSet m key value).map Prod.fst).Nodup := by
  rw [mapSet]
  split
  · rename_i hany
    have hkeys : (m.map (fun kv => if kv.1 = key then (key, value) else kv)).map Prod.fst
        = m.map Prod.fst := by
      rw [List.map_map]
      refine List.map_congr_left (fun kv hkv => ?_)
      by_cases hk : kv.1 = key
      · simp [Function.comp, hk]
      · simp [Function.comp, hk]
    rw [hkeys]
    exact h
  · rename_i hany
    have hnm : key ∉ m.map Prod.fst := by
      intro hmem
      obtain ⟨kv, hkv, hfst⟩ := List.mem_map.mp hmem
      exact hany (List.any_eq_true.mpr ⟨kv, hkv, by simp [hfst]⟩)
    rw [List.map_append]
    simp [List.nodup_append, h]
    intro a ha
    exact hnm (List.mem_map.mpr ⟨(key, a), ha, rfl⟩)

/-- C8: for every serializable value and every caller-supplied headers
map (nil or with pairwise-distinct keys, possibly already containing a
different `Content-Type`), the outgoing request built by `PostJSON`
carries `Content-Type: application/json`; for every unserializable
value, `PostJSON` returns the marshal error before any send attempt. -/
theorem postJSON_sets_content_type_and_fails_fast (hc : HTTPClient)
    (transport : Nat → Outcome) (url : String) (v : JSONValue)
    (headers : Option (List (String × String)))
    (hnodup : ∀ m, headers = some m → (m.map Prod.fst).Nodup) :
    (∀ body, jsonMarshal v = Except.ok body →
      ∃ req, (PostJSON hc transport url v headers).request = some req ∧
        headerGet req.header "Content-Type" = some "application/json") ∧
    (∀ e, jsonMarshal v = Except.error e →
      (PostJSON hc transport url v headers).err = some e ∧
      (PostJSON hc transport url v headers).attempts = 0) := by
  constructor
  · intro body hok
    have hCT : ∀ m0 : List (String × String), (m0.map Prod.fst).Nodup →
        headerGet (setHeaders (mapSet m0 "Content-Type" "application/json")
          { method := "POST", url := url, body := body }).header "Content-Type"
        = some "application/json" := fun m0 hm0 =>
      headerGet_setHeaders_of_mem _ _ _ _
        (nodup_keys_mapSet m0 "Content-Type" "application/json" hm0)
        (mem_mapSet_self m0 "Content-Type" "application/json")
    cases headers with
    | none =>
      refine ⟨setHeaders (mapSet [] "Content-Type" "application/json")
          { method := "POST", url := url, body := body }, ?_, hCT [] (by simp)⟩
      simp [PostJSON, hok, Post]
    | some m =>
      refine ⟨setHeaders (mapSet m "Content-Type" "application/json")
          { method := "POST", url := url, body := body }, ?_, hCT m (hnodup m rfl)⟩
      simp [PostJSON, hok, Post]
  · intro e herr
    constructor <;> simp [PostJSON, herr]

/-- Witness for C8: a serializable string body and a caller map already
holding `Content-Type: text/plain`. -/
theorem postJSON_sets_content_type_and_fails_fast_witness :
    ∃ req, (PostJSON (NewHTTPClient [])
        (fun _ => Outcome.transportError "connection refused") "http://example.com"
        (JSONValue.str "hi") (some [("Content-Type", "text/plain")])).request = some req ∧
      headerGet req.header "Content-Type" = some "application/json" :=
  (postJSON_sets_content_type_and_fails_fast (NewHTTPClient [])
      (fun _ => Outcome.transportError "connection refused") "http://example.com"
      (JSONValue.str "hi") (some [("Content-Type", "text/plain")])
      (fun m hm => by cases hm; simp)).1 "\"hi\"" rfl

/-- C10 (amended): provided JSON serialization of the body succeeds,
`PostJSON` mutates the non-nil caller-supplied headers map in place,
inserting `Content-Type: application/json` (overwriting an existing
entry for that key), and the mutation remains visible to the caller
after the call; when serialization fails the map is left untouched. -/
theorem postJSON_mutates_caller_headers_on_success (hc : HTTPClient)
    (transport : Nat → Outcome) (url : String) (v : JSONValue)
    (m : List (String × String)) (body : String)
    (hok : jsonMarshal v = Except.ok body) :
    (PostJSON hc transport url v (some m)).callerHeaders
      = some (mapSet m "Content-Type" "application/json") ∧
    headerGet (mapSet m "Content-Type" "application/json") "Content-Type"
      = some "application/json" := by
  constructor
  · simp [PostJSON, hok]
  · exact headerGet_mapSet_self m "Content-Type" "application/json"

/-- Witness for C10's amended claim: a serializable body and a caller
map already holding a different `Content-Type`. -/
theorem postJSON_mutates_caller_headers_on_success_witness :
    (PostJSON (NewHTTPClient []) (fun _ => Outcome.transportError "connection refused")
        "http://example.com" JSONValue.null (some [("Content-Type", "text/plain")])).callerHeaders
      = some (mapSet [("Content-Type", "text/plain")] "Content-Type" "application/json") ∧
    headerGet (mapSet [("Content-Type", "text/plain")] "Content-Type" "application/json")
        "Content-Type" = some "application/json" :=
  postJSON_mutates_caller_headers_on_success (NewHTTPClient [])
    (fun _ => Outcome.transportError "connection refused") "http://example.com"
    JSONValue.null [("Content-Type", "text/plain")] "null" rfl

/-- C10 counterexample: with an unserializable body (a channel) and the
non-nil caller map `[("Authorization", "token")]`, `PostJSON` returns
before the insertion: the caller's map is unchanged and carries no
`Content-Type` entry, contradicting the unconditional claim. -/
theorem postJSON_channel_leaves_caller_headers_unchanged :
    (PostJSON (NewHTTPClient []) (fun _ => Outcome.transportError "connection refused")
        "http://example.com" JSONValue.channel
        (some [("Authorization", "token")])).callerHeaders
      = some [("Authorization", "token")] ∧
    headerGet [("Authorization", "token")] "Content-Type" = none := by
  constructor <;> rfl

end HttpClient

